import Mathlib

/-!
Verification of the `pe-edu` auto-grader core (`grader.py`) against its
natural-language specification.

The development shallowly embeds the grading logic of `ExcelGrader`:
  * `identify_color` / `get_cell_color` — the fill-color classifier,
  * `analyze_answer_sheet` — per-student score aggregation,
  * `generate_scored_excel` — regeneration of the scored workbook.

Modelling conventions:
  * Python cell values are `Value` (None, str, int); workbook cells written by
    the regeneration step may additionally hold numeric scores (`AVal`).
  * Machine floats do not appear: every score is a multiple of 1.25 and every
    reachable sum is bounded by 100, so all Python float arithmetic performed
    by the program is exact and is modelled with `ℚ`.
  * The float comparison `distance ** 0.5 < 30` is modelled as the integer
    comparison `distanceSquared < 900`, which is equivalent for integer
    channels: sqrt is monotone, both sides are exactly representable, and
    correctly-rounded sqrt preserves the strict comparison against 30.
-/

namespace PE

/-- Semantic grade of a cell fill: the three Korean color names used by the
source (`초록` green = full credit, `노랑` yellow = partial, `빨강` red = none). -/
inductive Color where
  | green
  | yellow
  | red
deriving DecidableEq, Repr

/-- Python cell values relevant to the grader: `None`, strings and integers.
(Float-valued cells behave like integers with respect to the truthiness and
strip tests the grader performs on them and are not modelled separately.) -/
inductive Value where
  | vNone
  | vStr (s : String)
  | vInt (n : Int)
deriving DecidableEq, Repr

/-- Whitespace characters stripped by Python `str.strip()` / `int()`
(ASCII subset: space, tab, newline, carriage return, vertical tab, form feed). -/
def pyIsSpace (c : Char) : Bool :=
  c = ' ' ∨ c = '\t' ∨ c = '\n' ∨ c = '\r' ∨ c = '\x0b' ∨ c = '\x0c'

/-- Python `str.strip()`: remove leading and trailing whitespace. -/
def pyStrip (s : String) : String :=
  String.mk (((s.data.dropWhile pyIsSpace).reverse.dropWhile pyIsSpace).reverse)

/-- Fuel-driven decimal digit expansion (the fuel strictly bounds the number,
so it never runs out; see `natToDecChars_eq`). -/
def natToDecGo : Nat → Nat → List Char
  | 0, _ => []
  | fuel + 1, n =>
    if n < 10 then [Nat.digitChar n]
    else natToDecGo fuel (n / 10) ++ [Nat.digitChar (n % 10)]

/-- Decimal digit characters of a natural number, most significant first
(the digits of Python `str(n)` for `n ≥ 0`). -/
def natToDecChars (n : Nat) : List Char :=
  natToDecGo (n + 1) n

/-- The expansion does not depend on the fuel, as long as it suffices. -/
lemma natToDecGo_fuel :
    ∀ (f1 n f2 : Nat), n < f1 → n < f2 → natToDecGo f1 n = natToDecGo f2 n
  | 0, _, _, h1, _ => absurd h1 (by omega)
  | _ + 1, _, 0, _, h2 => absurd h2 (by omega)
  | f1 + 1, n, f2 + 1, h1, h2 => by
    simp only [natToDecGo]
    by_cases hn : n < 10
    · rw [if_pos hn, if_pos hn]
    · rw [if_neg hn, if_neg hn]
      have hdiv : n / 10 < n := Nat.div_lt_self (by omega) (by omega)
      rw [natToDecGo_fuel f1 (n / 10) f2 (by omega) (by omega)]

/-- Unfolding equation for the decimal expansion. -/
lemma natToDecChars_eq (n : Nat) :
    natToDecChars n =
      if n < 10 then [Nat.digitChar n]
      else natToDecChars (n / 10) ++ [Nat.digitChar (n % 10)] := by
  unfold natToDecChars
  have hstep : natToDecGo (n + 1) n =
      if n < 10 then [Nat.digitChar n]
      else natToDecGo n (n / 10) ++ [Nat.digitChar (n % 10)] := rfl
  rw [hstep]
  by_cases hn : n < 10
  · rw [if_pos hn, if_pos hn]
  · rw [if_neg hn, if_neg hn]
    have hdiv : n / 10 < n := Nat.div_lt_self (by omega) (by omega)
    rw [natToDecGo_fuel n (n / 10) (n / 10 + 1) (by omega) (by omega)]

/-- Python `str(n)` for a natural number. -/
def natToDec (n : Nat) : String :=
  String.mk (natToDecChars n)

/-- Python `str(n)` for an integer. -/
def intToDec (n : Int) : String :=
  if n < 0 then String.mk ('-' :: natToDecChars n.natAbs) else natToDec n.natAbs

/-- Python `str(v)` for the modelled cell values. -/
def pyToStr : Value → String
  | .vNone => "None"
  | .vStr s => s
  | .vInt n => intToDec n

/-- Python truthiness `bool(v)` for the modelled cell values. -/
def pyTruthy : Value → Bool
  | .vNone => false
  | .vStr s => s ≠ ""
  | .vInt n => n ≠ 0

/-- Value of a hexadecimal digit character, if it is one. -/
def hexVal? (c : Char) : Option Nat :=
  if 48 ≤ c.toNat ∧ c.toNat ≤ 57 then some (c.toNat - 48)
  else if 97 ≤ c.toNat ∧ c.toNat ≤ 102 then some (c.toNat - 87)
  else if 65 ≤ c.toNat ∧ c.toNat ≤ 70 then some (c.toNat - 55)
  else none

/-- Value of a nonempty list of hex digits, if all characters are hex digits. -/
def hexListVal (cs : List Char) : Option Nat :=
  cs.foldl
    (fun acc c =>
      match acc, hexVal? c with
      | some a, some d => some (16 * a + d)
      | _, _ => none)
    (some 0)

/-- Python `int(s, 16)`, restricted to the length-2 slices the grader feeds it
(returns `none` where Python raises `ValueError`).  Python strips surrounding
whitespace and accepts one leading sign before the digits; the `0x` prefix and
digit-group underscores need at least three characters and therefore cannot
occur in a length-2 slice. -/
def pyIntHex (s : List Char) : Option Int :=
  let t := ((s.dropWhile pyIsSpace).reverse.dropWhile pyIsSpace).reverse
  match t with
  | [] => none
  | c :: rest =>
    let sign : Int := if c = '-' then -1 else 1
    let digits := if c = '-' ∨ c = '+' then rest else c :: rest
    if digits.isEmpty then none
    else
      match hexListVal digits with
      | some v => some (sign * v)
      | none => none

/-- Squared Euclidean distance between two RGB points
(`color_distance(...) ** 2` in the source; the source compares the square
root against 30, we compare the square against 900). -/
def color_distance_sq (r1 g1 b1 r2 g2 b2 : Int) : Int :=
  (r1 - r2) ^ 2 + (g1 - g2) ^ 2 + (b1 - b2) ^ 2

/-- `ExcelGrader._identify_color`: nearest-reference match within tolerance 30
(strict), then the coarse green/yellow/red heuristic, else no classification. -/
def identify_color (r g b : Int) : Option Color :=
  if color_distance_sq r g b 182 215 168 < 900 then some .green
  else if color_distance_sq r g b 255 229 153 < 900 then some .yellow
  else if color_distance_sq r g b 234 153 153 < 900 then some .red
  else if 200 < g ∧ r < 180 then some .green
  else if 200 < r ∧ 200 < g then some .yellow
  else if 200 < r ∧ g < 180 then some .red
  else none

/-- A cell fill as the classifier sees it: either absent/falsy
(`not fill or not fill.start_color`), or a start color with a `type` tag and
an optional `rgb` string attribute. -/
inductive CellFill where
  | noFill
  | fillOf (ctype : String) (rgb : Option String)
deriving DecidableEq, Repr

/-- The `try`/`except ValueError` block of `get_cell_color`: if all three
channel slices parse, classify the triple, otherwise the exception is caught
and the result is `None`. -/
def classifySlices (a b c : Option Int) : Option Color :=
  match a, b, c with
  | some r, some g, some b2 => identify_color r g b2
  | _, _, _ => none

/-- `ExcelGrader.get_cell_color`: extract the fill color string, strip an
8-character alpha prefix, parse the three channel slices with `int(_, 16)`,
and classify. -/
def get_cell_color (fill : CellFill) : Option Color :=
  match fill with
  | .noFill => none
  | .fillOf ctype rgb? =>
    if ctype = "rgb" then
      match rgb? with
      | none => none
      | some rgb0 =>
        let cs := rgb0.data
        if cs ≠ [] ∧ 6 ≤ cs.length then
          let rgb := if cs.length = 8 then cs.drop 2 else cs
          classifySlices (pyIntHex (rgb.take 2)) (pyIntHex ((rgb.drop 2).take 2))
            (pyIntHex ((rgb.drop 4).take 2))
        else none
    else none

/-- `ExcelGrader.OBJECTIVE_SCORES.get(color, 0)`: the objective weight table
`{초록: 2.5, 노랑: 1.25, 빨강: 0}` with default 0 for an unclassified color. -/
def OBJECTIVE_SCORES : Option Color → ℚ
  | some .green => 2.5
  | some .yellow => 1.25
  | some .red => 0
  | none => 0

/-- `ExcelGrader.SUBJECTIVE_SCORES.get(color, 0)`: the subjective weight table
`{초록: 5.0, 노랑: 2.5, 빨강: 0}` with default 0 for an unclassified color. -/
def SUBJECTIVE_SCORES : Option Color → ℚ
  | some .green => 5.0
  | some .yellow => 2.5
  | some .red => 0
  | none => 0

/-- `ExcelGrader.OBJECTIVE_COLS = list(range(4, 14))` (0-based indices). -/
def OBJECTIVE_COLS : List Nat :=
  List.range' 4 10

/-- `ExcelGrader.SUBJECTIVE_COLS = list(range(15, 30))` (0-based indices). -/
def SUBJECTIVE_COLS : List Nat :=
  List.range' 15 15

/-- `ExcelGrader.OBJECTIVE_SUM_COL = 14` (0-based). -/
def OBJECTIVE_SUM_COL : Nat := 14

/-- `ExcelGrader.SUBJECTIVE_SUM_COL = 30` (0-based). -/
def SUBJECTIVE_SUM_COL : Nat := 30

/-- `ExcelGrader.TOTAL_SUM_COL = 31` (0-based). -/
def TOTAL_SUM_COL : Nat := 31

/-- A worksheet cell: its Python value and its background fill. -/
structure Cell where
  value : Value
  fill : CellFill
deriving DecidableEq, Repr

/-- The cell openpyxl reports at a coordinate holding no data
(value `None`, no usable fill). -/
def emptyCell : Cell :=
  { value := .vNone, fill := .noFill }

/-- A worksheet: the list of its rows (the head is worksheet row 1), each row
the list of its cells (the head is column A). -/
abbrev Sheet := List (List Cell)

/-- openpyxl `ws.max_column`: the column extent of the stored data.
(openpyxl reports at least 1 even for an empty sheet; the difference only
arises when every guard below skips the row anyway.) -/
def maxColumn (s : Sheet) : Nat :=
  (s.map List.length).foldr max 0

/-- Pad a row to the sheet extent: openpyxl `iter_rows` yields one cell per
column up to `max_column`, substituting empty cells for missing ones. -/
def padTo (n : Nat) (row : List Cell) : List Cell :=
  row ++ List.replicate (n - row.length) emptyCell

/-- One row of the analysis DataFrame built by `analyze_answer_sheet`
(`행번호` row number, `학생명` student name, objective, subjective, total). -/
structure Entry where
  rowNum : Nat
  name : Value
  objective : ℚ
  subjective : ℚ
  total : ℚ
deriving DecidableEq, Repr

/-- The objective loop of `analyze_answer_sheet`: for each column index in
`OBJECTIVE_COLS` present in the row, classify the fill and add the weight. -/
def objRowScore (row : List Cell) : ℚ :=
  OBJECTIVE_COLS.foldl
    (fun acc c =>
      if c < row.length then
        acc + OBJECTIVE_SCORES (get_cell_color (row.getD c emptyCell).fill)
      else acc)
    0

/-- The subjective loop of `analyze_answer_sheet`. -/
def subjRowScore (row : List Cell) : ℚ :=
  SUBJECTIVE_COLS.foldl
    (fun acc c =>
      if c < row.length then
        acc + SUBJECTIVE_SCORES (get_cell_color (row.getD c emptyCell).fill)
      else acc)
    0

/-- The row loop of `analyze_answer_sheet`: walk the rows yielded by
`iter_rows(min_row=2, ...)` (row numbers counted from `rn`), skip rows with
fewer than three cells and rows failing the name test
(`not student_name or str(student_name).strip() == ''`), and build an entry
for every remaining row.  `mc` is the sheet extent used for padding. -/
def collectFrom (mc : Nat) : Nat → List (List Cell) → List Entry
  | _, [] => []
  | rn, row :: rest =>
    let padded := padTo mc row
    if padded.length ≤ 2 then collectFrom mc (rn + 1) rest
    else
      let nm := (padded.getD 2 emptyCell).value
      if pyTruthy nm = false ∨ pyStrip (pyToStr nm) = "" then
        collectFrom mc (rn + 1) rest
      else
        { rowNum := rn, name := nm,
          objective := objRowScore padded,
          subjective := subjRowScore padded,
          total := objRowScore padded + subjRowScore padded }
          :: collectFrom mc (rn + 1) rest

/-- Insert an entry into a list sorted by `rowNum`. -/
def insertByRow (e : Entry) : List Entry → List Entry
  | [] => [e]
  | x :: xs => if e.rowNum ≤ x.rowNum then e :: x :: xs else x :: insertByRow e xs

/-- The final `df.sort_values('행번호')` of `analyze_answer_sheet`, modelled
as an insertion sort on the row-number key (the keys are pairwise distinct, so
any comparison sort produces this order). -/
def sortByRow : List Entry → List Entry
  | [] => []
  | x :: xs => insertByRow x (sortByRow xs)

/-- `ExcelGrader.analyze_answer_sheet`: `none` models an absent answer sheet
(`if not self.answer_sheet: return pd.DataFrame()`); otherwise iterate the
data rows (worksheet rows 2 and below), score them, and sort by row number.
Entries keep the row number; the UI afterwards drops that column. -/
def analyze_answer_sheet (answer_sheet : Option Sheet) : List Entry :=
  match answer_sheet with
  | none => []
  | some s => sortByRow (collectFrom (maxColumn s) 2 (s.drop 1))

/-! Basic facts about the classifier: the three tolerance balls are pairwise
disjoint, because the reference colors are pairwise further apart than twice
the tolerance radius. -/

/-- No point is within (strict) tolerance of both the green and the yellow
reference color. -/
lemma tol_disjoint_gy (r g b : Int)
    (h1 : color_distance_sq r g b 182 215 168 < 900)
    (h2 : color_distance_sq r g b 255 229 153 < 900) : False := by
  unfold color_distance_sq at h1 h2
  nlinarith [sq_nonneg ((r - 182) + (r - 255)), sq_nonneg ((g - 215) + (g - 229)),
    sq_nonneg ((b - 168) + (b - 153))]

/-- No point is within (strict) tolerance of both the green and the red
reference color. -/
lemma tol_disjoint_gr (r g b : Int)
    (h1 : color_distance_sq r g b 182 215 168 < 900)
    (h2 : color_distance_sq r g b 234 153 153 < 900) : False := by
  unfold color_distance_sq at h1 h2
  nlinarith [sq_nonneg ((r - 182) + (r - 234)), sq_nonneg ((g - 215) + (g - 153)),
    sq_nonneg ((b - 168) + (b - 153))]

/-- No point is within (strict) tolerance of both the yellow and the red
reference color. -/
lemma tol_disjoint_yr (r g b : Int)
    (h1 : color_distance_sq r g b 255 229 153 < 900)
    (h2 : color_distance_sq r g b 234 153 153 < 900) : False := by
  unfold color_distance_sq at h1 h2
  nlinarith [sq_nonneg ((r - 255) + (r - 234)), sq_nonneg ((g - 229) + (g - 153)),
    sq_nonneg ((b - 153) + (b - 153))]

/-- C3, counterexample to the claim as stated: the RGB triple (212, 215, 168)
is at Euclidean distance exactly 30 from the Full reference (182, 215, 168)
(so within the claimed tolerance "distance ≤ 30"), yet the classifier does not
return Full: the source compares with strict `< 30`, the triple falls through
to the heuristic, and `r > 200 and g > 200` classifies it as Partial. -/
theorem spec_C3_counterexample :
    color_distance_sq 212 215 168 182 215 168 = 30 ^ 2 ∧
    identify_color 212 215 168 ≠ some Color.green ∧
    identify_color 212 215 168 = some Color.yellow := by
  refine ⟨by decide, by decide, by decide⟩

/-- C3, amended: for every integer RGB triple at Euclidean distance strictly
less than 30 from a reference color (equivalently, squared distance `< 900`),
`_identify_color` returns that reference color's grade. -/
theorem spec_C3 (r g b : Int) :
    (color_distance_sq r g b 182 215 168 < 900 →
      identify_color r g b = some Color.green) ∧
    (color_distance_sq r g b 255 229 153 < 900 →
      identify_color r g b = some Color.yellow) ∧
    (color_distance_sq r g b 234 153 153 < 900 →
      identify_color r g b = some Color.red) := by
  refine ⟨fun h => ?_, fun h => ?_, fun h => ?_⟩
  · unfold identify_color
    rw [if_pos h]
  · have hg : ¬ color_distance_sq r g b 182 215 168 < 900 :=
      fun hg => tol_disjoint_gy r g b hg h
    unfold identify_color
    rw [if_neg hg, if_pos h]
  · have hg : ¬ color_distance_sq r g b 182 215 168 < 900 :=
      fun hg => tol_disjoint_gr r g b hg h
    have hy : ¬ color_distance_sq r g b 255 229 153 < 900 :=
      fun hy => tol_disjoint_yr r g b hy h
    unfold identify_color
    rw [if_neg hg, if_neg hy, if_pos h]

/-- Witness for C3: the three reference colors themselves (distance 0) are
classified as their own grades. -/
theorem spec_C3_witness :
    identify_color 182 215 168 = some Color.green ∧
    identify_color 255 229 153 = some Color.yellow ∧
    identify_color 234 153 153 = some Color.red :=
  ⟨(spec_C3 182 215 168).1 (by decide),
   (spec_C3 255 229 153).2.1 (by decide),
   (spec_C3 234 153 153).2.2 (by decide)⟩

/-- C4, counterexample to the claim as stated: the six-character color string
`" 5D700"` contains a character that is not a hexadecimal digit, yet
`get_cell_color` classifies it as Full rather than resolving it to Unknown:
Python `int(" 5", 16)` strips the space and parses 5, giving the channel
triple (5, 215, 0), which the heuristic classifies as green. -/
theorem spec_C4_counterexample :
    (' ' ∈ (" 5D700" : String).data ∧ hexVal? ' ' = none ∧
      (" 5D700" : String).data.length = 6) ∧
    get_cell_color (CellFill.fillOf "rgb" (some " 5D700")) = some Color.green := by
  refine ⟨⟨by decide, by decide, by decide⟩, by decide⟩

/-- If any channel slice fails to parse, the classification is `None`. -/
lemma classifySlices_none (a b c : Option Int)
    (h : a = none ∨ b = none ∨ c = none) : classifySlices a b c = none := by
  cases a <;> cases b <;> cases c <;> simp_all [classifySlices]

/-- Unfolding of `get_cell_color` on an rgb-typed fill with a present color
string. -/
lemma get_cell_color_rgb (cs : List Char) :
    get_cell_color (CellFill.fillOf "rgb" (some (String.mk cs))) =
      (if cs ≠ [] ∧ 6 ≤ cs.length then
        let rgb := if cs.length = 8 then cs.drop 2 else cs
        classifySlices (pyIntHex (rgb.take 2)) (pyIntHex ((rgb.drop 2).take 2))
          (pyIntHex ((rgb.drop 4).take 2))
      else none) := rfl

/-- Unfolding of `get_cell_color` on a fill whose color type is not `rgb`. -/
lemma get_cell_color_not_rgb (t : String) (r : Option String) (ht : t ≠ "rgb") :
    get_cell_color (CellFill.fillOf t r) = none := by
  simp only [get_cell_color]
  rw [if_neg ht]

/-- C4, amended: `get_cell_color` is total (the embedding returns a value on
every input, mirroring the source catching `ValueError`); absent fills, absent
color attributes and color strings shorter than 6 characters yield no
classification; a color string whose channel slices fail Python
`int(_, 16)` parsing (which tolerates surrounding whitespace and a sign in a
slice, so a slice can contain a non-hexadecimal character yet still parse)
yields no classification; and an 8-character color code behaves exactly as
the 6-character code obtained by stripping its two leading alpha characters. -/
theorem spec_C4 :
    (get_cell_color CellFill.noFill = none) ∧
    (∀ t : String, get_cell_color (CellFill.fillOf t none) = none) ∧
    (∀ (t : String) (cs : List Char), cs.length < 6 →
      get_cell_color (CellFill.fillOf t (some (String.mk cs))) = none) ∧
    (∀ (t : String) (cs : List Char), 6 ≤ cs.length →
      (pyIntHex ((if cs.length = 8 then cs.drop 2 else cs).take 2) = none ∨
       pyIntHex (((if cs.length = 8 then cs.drop 2 else cs).drop 2).take 2) = none ∨
       pyIntHex (((if cs.length = 8 then cs.drop 2 else cs).drop 4).take 2) = none) →
      get_cell_color (CellFill.fillOf t (some (String.mk cs))) = none) ∧
    (∀ (t : String) (cs : List Char), cs.length = 8 →
      get_cell_color (CellFill.fillOf t (some (String.mk cs))) =
        get_cell_color (CellFill.fillOf t (some (String.mk (cs.drop 2))))) := by
  refine ⟨rfl, ?_, ?_, ?_, ?_⟩
  · intro t
    by_cases ht : t = "rgb" <;> simp [get_cell_color, ht]
  · intro t cs h
    by_cases ht : t = "rgb"
    · subst ht
      rw [get_cell_color_rgb, if_neg]
      push_neg
      intro _
      omega
    · exact get_cell_color_not_rgb _ _ ht
  · intro t cs h6 hfail
    by_cases ht : t = "rgb"
    · subst ht
      have hne : cs ≠ [] := by
        intro h0
        rw [h0] at h6
        simp at h6
      rw [get_cell_color_rgb, if_pos ⟨hne, h6⟩]
      exact classifySlices_none _ _ _ hfail
    · exact get_cell_color_not_rgb _ _ ht
  · intro t cs h8
    by_cases ht : t = "rgb"
    · subst ht
      have hne : cs ≠ [] := by
        intro h0
        rw [h0] at h8
        simp at h8
      have hdlen : (cs.drop 2).length = 6 := by
        simp [h8]
      have hdne : cs.drop 2 ≠ [] := by
        intro h0
        rw [h0] at hdlen
        simp at hdlen
      have hc1 : cs ≠ [] ∧ 6 ≤ cs.length := ⟨hne, by omega⟩
      have hc2 : cs.drop 2 ≠ [] ∧ 6 ≤ (cs.drop 2).length := ⟨hdne, by omega⟩
      rw [get_cell_color_rgb, get_cell_color_rgb, if_pos hc1, if_pos hc2]
      simp [h8, hdlen]
    · rw [get_cell_color_not_rgb _ _ ht, get_cell_color_not_rgb _ _ ht]

/-- Witness for C4: a too-short string, a six-character non-parsable string,
and a concrete 8-character alpha-prefixed code. -/
theorem spec_C4_witness :
    get_cell_color (CellFill.fillOf "rgb" (some (String.mk ['F', 'F']))) = none ∧
    get_cell_color (CellFill.fillOf "rgb"
        (some (String.mk ['G', 'G', 'G', 'G', 'G', 'G']))) = none ∧
    get_cell_color (CellFill.fillOf "rgb"
        (some (String.mk ['F', 'F', 'B', '6', 'D', '7', 'A', '8']))) =
      get_cell_color (CellFill.fillOf "rgb"
        (some (String.mk (['F', 'F', 'B', '6', 'D', '7', 'A', '8'].drop 2)))) :=
  ⟨spec_C4.2.2.1 "rgb" ['F', 'F'] (by decide),
   spec_C4.2.2.2.1 "rgb" ['G', 'G', 'G', 'G', 'G', 'G'] (by decide) (Or.inl (by decide)),
   spec_C4.2.2.2.2 "rgb" ['F', 'F', 'B', '6', 'D', '7', 'A', '8'] (by decide)⟩

/-! Characterization of `analyze_answer_sheet` as a filter-and-map over the
(row number, row) pairs of the data rows. -/

/-- The combined row guard of the analysis loop, as one boolean: a row is
processed unless it has at most two cells or its name cell fails
`not student_name or str(student_name).strip() == ''`. -/
def selRow (mc : Nat) (row : List Cell) : Bool :=
  let padded := padTo mc row
  if padded.length ≤ 2 then false
  else
    let nm := (padded.getD 2 emptyCell).value
    if pyTruthy nm = false ∨ pyStrip (pyToStr nm) = "" then false else true

/-- A row has a non-blank name: the value in the name column (position 3,
0-based index 2) is truthy and does not strip to the empty string.  This is
the specification-level selection criterion. -/
def nameNonBlank (mc : Nat) (row : List Cell) : Bool :=
  pyTruthy ((padTo mc row).getD 2 emptyCell).value &&
    !(pyStrip (pyToStr ((padTo mc row).getD 2 emptyCell).value) == "")

/-- The entry the analysis loop appends for a processed row. -/
def mkEntry (mc rn : Nat) (row : List Cell) : Entry :=
  let padded := padTo mc row
  { rowNum := rn, name := (padded.getD 2 emptyCell).value,
    objective := objRowScore padded,
    subjective := subjRowScore padded,
    total := objRowScore padded + subjRowScore padded }

/-- The loop guard agrees with the name criterion: a row with at most two
cells has no cell in the name column, so its padded name value is `None` and
fails the truthiness test as well. -/
lemma selRow_eq_nameNonBlank (mc : Nat) (row : List Cell) :
    selRow mc row = nameNonBlank mc row := by
  unfold selRow nameNonBlank
  by_cases h2 : (padTo mc row).length ≤ 2
  · rw [if_pos h2]
    have hd : (padTo mc row).getD 2 emptyCell = emptyCell :=
      List.getD_eq_default _ _ (by omega)
    rw [hd]
    simp [emptyCell, pyTruthy]
  · rw [if_neg h2]
    generalize ((padTo mc row).getD 2 emptyCell).value = nm
    by_cases ht : pyTruthy nm <;> by_cases hs : pyStrip (pyToStr nm) = "" <;>
      simp [ht, hs]

/-- The collection loop is the filter-and-map of the enumerated rows. -/
lemma collectFrom_eq (mc : Nat) :
    ∀ (rows : List (List Cell)) (rn : Nat),
    collectFrom mc rn rows =
      ((List.enumFrom rn rows).filter (fun q => selRow mc q.2)).map
        (fun q => mkEntry mc q.1 q.2)
  | [], _ => rfl
  | row :: rest, rn => by
    simp only [collectFrom, List.enumFrom, List.filter_cons]
    by_cases h2 : (padTo mc row).length ≤ 2
    · have hsel : selRow mc row = false := by
        unfold selRow
        rw [if_pos h2]
      rw [if_pos h2, hsel]
      simpa using collectFrom_eq mc rest (rn + 1)
    · rw [if_neg h2]
      by_cases hskip : pyTruthy ((padTo mc row).getD 2 emptyCell).value = false ∨
          pyStrip (pyToStr ((padTo mc row).getD 2 emptyCell).value) = ""
      · have hsel : selRow mc row = false := by
          unfold selRow
          rw [if_neg h2, if_pos hskip]
        rw [if_pos hskip, hsel]
        simpa using collectFrom_eq mc rest (rn + 1)
      · have hsel : selRow mc row = true := by
          unfold selRow
          rw [if_neg h2, if_neg hskip]
        rw [if_neg hskip, hsel]
        simp only [if_pos rfl, List.map_cons]
        rw [collectFrom_eq mc rest (rn + 1)]
        rfl

/-- Every enumerated pair has index at least the starting index. -/
lemma enumFrom_fst_le {α : Type} :
    ∀ (l : List α) (n : Nat) (p : Nat × α), p ∈ List.enumFrom n l → n ≤ p.1
  | [], _, _, h => by simp [List.enumFrom] at h
  | x :: xs, n, p, h => by
    simp only [List.enumFrom, List.mem_cons] at h
    rcases h with h | h
    · rw [h]
    · exact Nat.le_of_succ_le (enumFrom_fst_le xs (n + 1) p h)

/-- The enumerated indices are strictly increasing. -/
lemma enumFrom_pairwise {α : Type} :
    ∀ (l : List α) (n : Nat),
      (List.enumFrom n l).Pairwise (fun p q => p.1 < q.1)
  | [], _ => List.Pairwise.nil
  | x :: xs, n => by
    simp only [List.enumFrom]
    refine List.Pairwise.cons ?_ (enumFrom_pairwise xs (n + 1))
    intro p hp
    exact Nat.lt_of_lt_of_le (Nat.lt_succ_self n) (enumFrom_fst_le xs (n + 1) p hp)

/-- Inserting an element no larger than the head keeps it at the front. -/
lemma sortByRow_of_pairwise :
    ∀ l : List Entry, l.Pairwise (fun a b => a.rowNum ≤ b.rowNum) → sortByRow l = l
  | [], _ => rfl
  | x :: xs, h => by
    simp only [sortByRow]
    rw [sortByRow_of_pairwise xs (List.Pairwise.of_cons h)]
    cases xs with
    | nil => rfl
    | cons y ys =>
      simp only [insertByRow]
      rw [if_pos (List.rel_of_pairwise_cons h (List.mem_cons_self y ys))]

/-- `analyze_answer_sheet` on a present sheet: exactly the data rows passing
the name test, in original row order, each contributing its scored entry. -/
lemma analyze_eq (s : Sheet) :
    analyze_answer_sheet (some s) =
      ((List.enumFrom 2 (s.drop 1)).filter
        (fun q => nameNonBlank (maxColumn s) q.2)).map
        (fun q => mkEntry (maxColumn s) q.1 q.2) := by
  simp only [analyze_answer_sheet]
  rw [collectFrom_eq]
  have hfilter :
      (List.enumFrom 2 (s.drop 1)).filter (fun q => selRow (maxColumn s) q.2) =
        (List.enumFrom 2 (s.drop 1)).filter (fun q => nameNonBlank (maxColumn s) q.2) :=
    List.filter_congr (fun q _ => selRow_eq_nameNonBlank (maxColumn s) q.2)
  rw [hfilter]
  apply sortByRow_of_pairwise
  have hpw := enumFrom_pairwise (s.drop 1) 2
  have hpwf := hpw.filter (fun q => nameNonBlank (maxColumn s) q.2)
  refine List.Pairwise.map _ ?_ hpwf
  intro p q hpq
  exact Nat.le_of_lt hpq

/-- C1: the analysis summary has exactly one entry per data row whose name
cell (fixed position 3) is non-blank — truthy and not stripping to the empty
string — and the entries appear in original row order (the concluding sort by
row number is the identity on the already-ordered collection).  Rows with a
blank or whitespace-only name contribute no entry. -/
theorem spec_C1 (s : Sheet) :
    (analyze_answer_sheet (some s)).map Entry.rowNum =
      ((List.enumFrom 2 (s.drop 1)).filter
        (fun q => nameNonBlank (maxColumn s) q.2)).map Prod.fst := by
  rw [analyze_eq, List.map_map]
  exact List.map_congr_left (fun q _ => rfl)

/-- C5: every reported grand total is exactly the sum of the reported
objective and subjective totals (the entry is built with
`obj_score_sum + subj_score_sum` and no further rounding; all reachable
values are small dyadic rationals, for which float addition is exact). -/
theorem spec_C5 (ws : Option Sheet) (e : Entry)
    (he : e ∈ analyze_answer_sheet ws) :
    e.total = e.objective + e.subjective := by
  cases ws with
  | none => simp [analyze_answer_sheet] at he
  | some s =>
    rw [analyze_eq] at he
    rcases List.mem_map.mp he with ⟨q, _, rfl⟩
    rfl

/-- A scoring fold over columns that all classify green adds the green weight
once per column: membership of the classified value forces the column to be
inside the row (an out-of-range column reads the empty cell, which does not
classify), so no column is skipped. -/
lemma scoreFold_green (w : Option Color → ℚ) (row : List Cell) :
    ∀ (cols : List Nat) (q : ℚ),
      (∀ c ∈ cols, get_cell_color (row.getD c emptyCell).fill = some Color.green) →
      List.foldl
        (fun acc c =>
          if c < row.length then acc + w (get_cell_color (row.getD c emptyCell).fill)
          else acc) q cols
        = q + cols.length * w (some Color.green)
  | [], q, _ => by simp
  | c :: cs, q, h => by
    have hc := h c (List.mem_cons_self c cs)
    have hlt : c < row.length := by
      by_contra hge
      rw [List.getD_eq_default _ _ (by omega)] at hc
      exact absurd hc (by decide)
    simp only [List.foldl_cons, if_pos hlt, hc]
    rw [scoreFold_green w row cs (q + w (some Color.green))
      (fun c2 h2 => h c2 (List.mem_cons_of_mem c h2))]
    simp only [List.length_cons]
    push_cast
    ring

/-- C2: a data row whose ten objective cells all classify Full (green) and
whose fifteen subjective cells all classify Full is reported with objective
total 25, subjective total 75 and grand total 100, per the fixed weight
tables (objective Full = 2.5, subjective Full = 5.0). -/
theorem spec_C2 (s : Sheet) (r : Nat) (row : List Cell)
    (hmem : (r, row) ∈ List.enumFrom 2 (s.drop 1))
    (hname : nameNonBlank (maxColumn s) row = true)
    (hobj : ∀ c ∈ OBJECTIVE_COLS,
      get_cell_color ((padTo (maxColumn s) row).getD c emptyCell).fill =
        some Color.green)
    (hsubj : ∀ c ∈ SUBJECTIVE_COLS,
      get_cell_color ((padTo (maxColumn s) row).getD c emptyCell).fill =
        some Color.green) :
    ∃ e ∈ analyze_answer_sheet (some s),
      e.rowNum = r ∧ e.objective = 25 ∧ e.subjective = 75 ∧ e.total = 100 := by
  have hobj25 : objRowScore (padTo (maxColumn s) row) = 25 := by
    unfold objRowScore
    rw [scoreFold_green _ _ _ _ hobj]
    norm_num [OBJECTIVE_COLS, OBJECTIVE_SCORES]
  have hsubj75 : subjRowScore (padTo (maxColumn s) row) = 75 := by
    unfold subjRowScore
    rw [scoreFold_green _ _ _ _ hsubj]
    norm_num [SUBJECTIVE_COLS, SUBJECTIVE_SCORES]
  refine ⟨mkEntry (maxColumn s) r row, ?_, rfl, ?_, ?_, ?_⟩
  · rw [analyze_eq]
    exact List.mem_map_of_mem _ (List.mem_filter.mpr ⟨hmem, hname⟩)
  · exact hobj25
  · exact hsubj75
  · show objRowScore (padTo (maxColumn s) row) + subjRowScore (padTo (maxColumn s) row) = 100
    rw [hobj25, hsubj75]
    norm_num

/-- A fill carrying the exact Full reference color `B6D7A8`. -/
def sampleGreenFill : CellFill := CellFill.fillOf "rgb" (some "B6D7A8")

/-- A cell colored with the Full reference color. -/
def sampleGreenCell : Cell := { value := Value.vNone, fill := sampleGreenFill }

/-- A name cell holding a non-blank student name. -/
def sampleNameCell : Cell := { value := Value.vStr "김철수", fill := CellFill.noFill }

/-- A data row: name in position 3, all ten objective cells (positions 5-14)
and all fifteen subjective cells (positions 16-30) green. -/
def sampleRow : List Cell :=
  [emptyCell, emptyCell, sampleNameCell, emptyCell] ++
    List.replicate 10 sampleGreenCell ++ [emptyCell] ++
    List.replicate 15 sampleGreenCell

/-- A two-row sheet: a header row and the fully green data row. -/
def sampleSheet : Sheet := [[emptyCell], sampleRow]

/-- Witness for C2: on the concrete sample sheet, the all-green row at row 2
is reported with 25 / 75 / 100. -/
theorem spec_C2_witness :
    ∃ e ∈ analyze_answer_sheet (some sampleSheet),
      e.rowNum = 2 ∧ e.objective = 25 ∧ e.subjective = 75 ∧ e.total = 100 :=
  spec_C2 sampleSheet 2 sampleRow (by decide) (by decide) (by decide) (by decide)

/-- Witness for C5: the entry produced for the sample row satisfies the
total-equals-sum relation. -/
theorem spec_C5_witness :
    (mkEntry (maxColumn sampleSheet) 2 sampleRow).total =
      (mkEntry (maxColumn sampleSheet) 2 sampleRow).objective +
        (mkEntry (maxColumn sampleSheet) 2 sampleRow).subjective := by
  refine spec_C5 (some sampleSheet) _ ?_
  rw [analyze_eq]
  have hsel : nameNonBlank (maxColumn sampleSheet) sampleRow = true := by decide
  have henum : List.enumFrom 2 (sampleSheet.drop 1) = [(2, sampleRow)] := rfl
  rw [henum, List.filter_cons]
  simp [hsel]

/-! The regeneration step (`generate_scored_excel`).  Cells of the output
artifact hold either a value copied from the source workbook or a numeric
score written by the scoring loop; formulas and headers are the strings the
source writes into `.value`. -/

/-- A cell value in the regenerated workbook: a copied Python value, or a
numeric score written by the scoring loop (a float in the source; exact
here, see the module comment). -/
inductive AVal where
  | av (v : Value)
  | aq (q : ℚ)
deriving DecidableEq, Repr

/-- A cell of the regenerated workbook: value and fill. -/
structure ACell where
  value : AVal
  fillc : CellFill
deriving DecidableEq, Repr

/-- The cell openpyxl reports at an unwritten coordinate. -/
def emptyACell : ACell := { value := .av .vNone, fillc := .noFill }

/-- A sheet of the regenerated workbook. -/
abbrev ASheet := List (List ACell)

/-- Pad a list with a default up to length `n`. -/
def padListTo {α : Type} (l : List α) (n : Nat) (d : α) : List α :=
  l ++ List.replicate (n - l.length) d

/-- Update position `i` of a list through `f`, materializing missing entries
with the default `d` first (openpyxl creates cells on access). -/
def setAt {α : Type} (l : List α) (i : Nat) (d : α) (f : α → α) : List α :=
  (padListTo l (i + 1) d).set i (f ((padListTo l (i + 1) d).getD i d))

lemma getD_replicate_self {α : Type} (n : Nat) (d : α) (j : Nat) :
    (List.replicate n d).getD j d = d := by
  rcases Nat.lt_or_ge j n with h | h
  · simp [List.getD, List.getElem?_replicate, h]
  · rw [List.getD_eq_default]
    simpa using h

lemma getD_padListTo {α : Type} (l : List α) (n : Nat) (d : α) (j : Nat) :
    (padListTo l n d).getD j d = l.getD j d := by
  induction l generalizing n j with
  | nil =>
    simp only [padListTo, List.nil_append, List.length_nil, Nat.sub_zero]
    rw [getD_replicate_self]
    rfl
  | cons a l ih =>
    have hstep : padListTo (a :: l) n d = a :: padListTo l (n - 1) d := by
      unfold padListTo
      have hc : n - (a :: l).length = (n - 1) - l.length := by
        simp only [List.length_cons]
        omega
      rw [hc]
      rfl
    rw [hstep]
    cases j with
    | zero => rfl
    | succ j =>
      simp only [List.getD_cons_succ]
      exact ih (n - 1) j

lemma length_padListTo {α : Type} (l : List α) (n : Nat) (d : α) :
    (padListTo l n d).length = max l.length n := by
  simp [padListTo]
  omega

lemma getD_set_self {α : Type} (l : List α) (i : Nat) (a d : α)
    (h : i < l.length) :
    (l.set i a).getD i d = a := by
  simp [List.getD, List.getElem?_set_self', h]

lemma getD_set_ne {α : Type} (l : List α) (i j : Nat) (a d : α) (h : i ≠ j) :
    (l.set i a).getD j d = l.getD j d := by
  simp [List.getD, List.getElem?_set_ne h]

lemma getD_setAt_self {α : Type} (l : List α) (i : Nat) (d : α) (f : α → α) :
    (setAt l i d f).getD i d = f (l.getD i d) := by
  unfold setAt
  have h1 : (padListTo l (i + 1) d).getD i d = l.getD i d := getD_padListTo l (i + 1) d i
  rw [h1]
  have hlen : i < (padListTo l (i + 1) d).length := by
    rw [length_padListTo]
    omega
  exact getD_set_self _ _ _ _ hlen

lemma getD_setAt_ne {α : Type} (l : List α) (i : Nat) (d : α) (f : α → α)
    (j : Nat) (h : i ≠ j) :
    (setAt l i d f).getD j d = l.getD j d := by
  unfold setAt
  rw [getD_set_ne _ _ _ _ _ h]
  exact getD_padListTo l (i + 1) d j

lemma length_setAt {α : Type} (l : List α) (i : Nat) (d : α) (f : α → α) :
    (setAt l i d f).length = max l.length (i + 1) := by
  unfold setAt
  rw [List.length_set, length_padListTo]

/-- The cell value at 1-based coordinates (`cell(row=r, column=c).value`). -/
def getValueA (s : ASheet) (r c : Nat) : AVal :=
  ((s.getD (r - 1) []).getD (c - 1) emptyACell).value

/-- The cell fill at 1-based coordinates (`cell(row=r, column=c).fill`). -/
def getFillA (s : ASheet) (r c : Nat) : CellFill :=
  ((s.getD (r - 1) []).getD (c - 1) emptyACell).fillc

/-- `cell(row=r, column=c).value = v` (1-based coordinates). -/
def setValue (s : ASheet) (r c : Nat) (v : AVal) : ASheet :=
  setAt s (r - 1) []
    (fun row => setAt row (c - 1) emptyACell (fun cell => { cell with value := v }))

/-- `cell(row=r, column=c).fill = f` (1-based coordinates). -/
def setFill (s : ASheet) (r c : Nat) (f : CellFill) : ASheet :=
  setAt s (r - 1) []
    (fun row => setAt row (c - 1) emptyACell (fun cell => { cell with fillc := f }))

lemma getValueA_setValue_self (s : ASheet) (r c : Nat) (v : AVal) :
    getValueA (setValue s r c v) r c = v := by
  unfold getValueA setValue
  rw [getD_setAt_self, getD_setAt_self]

lemma getValueA_setValue_ne (s : ASheet) (r c : Nat) (v : AVal) (r' c' : Nat)
    (hr : 1 ≤ r) (hc : 1 ≤ c) (hr' : 1 ≤ r') (hc' : 1 ≤ c')
    (h : r' ≠ r ∨ c' ≠ c) :
    getValueA (setValue s r c v) r' c' = getValueA s r' c' := by
  unfold getValueA setValue
  by_cases hrr : r' = r
  · subst hrr
    have hcc : c' ≠ c := by tauto
    rw [getD_setAt_self, getD_setAt_ne _ _ _ _ _ (by omega)]
  · rw [getD_setAt_ne _ _ _ _ _ (by omega)]

lemma getValueA_setFill (s : ASheet) (r c : Nat) (f : CellFill) (r' c' : Nat)
    (hr : 1 ≤ r) (hc : 1 ≤ c) (hr' : 1 ≤ r') (hc' : 1 ≤ c') :
    getValueA (setFill s r c f) r' c' = getValueA s r' c' := by
  unfold getValueA setFill
  by_cases hrr : r' = r
  · subst hrr
    rw [getD_setAt_self]
    by_cases hcc : c' = c
    · subst hcc
      rw [getD_setAt_self]
    · rw [getD_setAt_ne _ _ _ _ _ (by omega)]
  · rw [getD_setAt_ne _ _ _ _ _ (by omega)]

lemma length_setValue (s : ASheet) (r c : Nat) (v : AVal) (hr : 1 ≤ r) :
    (setValue s r c v).length = max s.length r := by
  unfold setValue
  rw [length_setAt]
  omega

/-- Python truthiness of a cell value of the regenerated workbook. -/
def aTruthy : AVal → Bool
  | .av v => pyTruthy v
  | .aq q => decide (q ≠ 0)

/-- Python `str()` of a cell value of the regenerated workbook.  The numeric
branch is never reached by the grader (scores are written only into answer
and summary columns, which the regeneration loop never reads back); it is
rendered as the exact fraction purely for totality, and, like Python `str()`
of any nonzero float, it never strips to the empty string. -/
def aToStr : AVal → String
  | .av v => pyToStr v
  | .aq q => intToDec q.num ++ "/" ++ natToDec q.den

/-- The name guard of the regeneration loop
(`if not student_name or str(student_name).strip() == '': continue`). -/
def rowNameOk (nm : AVal) : Bool :=
  if aTruthy nm = false ∨ pyStrip (aToStr nm) = "" then false else true

/-- openpyxl `get_column_letter`: bijective base-26 column letters. -/
def colChars (n : Nat) : List Char :=
  if _h : n = 0 then []
  else colChars ((n - 1) / 26) ++ [Char.ofNat (65 + (n - 1) % 26)]
termination_by n
decreasing_by
  exact Nat.lt_of_le_of_lt (Nat.div_le_self _ _) (by omega)

/-- openpyxl `get_column_letter` as a string. -/
def get_column_letter (n : Nat) : String :=
  String.mk (colChars n)

/-- One candidate sheet name: `f"{base}({k})"`. -/
def candName (base : String) (k : Nat) : String :=
  base ++ "(" ++ natToDec k ++ ")"

/-- The collision loop
`while target_sheet_name in new_wb.sheetnames: counter += 1; ...`, unrolled
with enough fuel to exhaust every name in the workbook (the loop always
terminates this way; `freshSheetName_not_mem` below shows the fuel
suffices). -/
def freshNameAux (names : List String) (base : String) : Nat → Nat → String
  | 0, k => candName base k
  | fuel + 1, k =>
    if candName base k ∈ names then freshNameAux names base fuel (k + 1)
    else candName base k

/-- The generated sheet name: the base name if free, otherwise the first free
`base(counter)` with the counter starting at 2. -/
def freshSheetName (names : List String) (base : String) : String :=
  if base ∈ names then freshNameAux names base (names.length + 1) 2 else base

/-- A source workbook: named sheets, the first being the answer sheet. -/
structure Workbook where
  sheets : List (String × Sheet)
deriving DecidableEq, Repr

/-- The regenerated workbook. -/
structure AWorkbook where
  sheets : List (String × ASheet)
deriving DecidableEq, Repr

/-- A source cell as it appears in the reloaded working copy. -/
def injectCell (c : Cell) : ACell := { value := .av c.value, fillc := c.fill }

/-- A source sheet as it appears in the reloaded working copy. -/
def injectSheet (s : Sheet) : ASheet := s.map (List.map injectCell)

/-- `self.workbook.save(temp_buffer)` followed by
`openpyxl.load_workbook(temp_buffer)`: an isolated working copy carrying the
same cell contents.  The subsequent clearing of structured-table metadata
(`ws.tables.clear()`) concerns file-format bookkeeping outside the value
model. -/
def reloadCopy (wb : Workbook) : AWorkbook :=
  { sheets := wb.sheets.map (fun p => (p.1, injectSheet p.2)) }

/-- Title and content of the answer sheet (`self.workbook[sheetnames[0]]`;
a loaded workbook always has at least one sheet). -/
def answerSheetName (wb : Workbook) : String := (wb.sheets.getD 0 ("", [])).1

/-- The answer sheet of the loaded workbook. -/
def answerSheet (wb : Workbook) : Sheet := (wb.sheets.getD 0 ("", [])).2

/-- The three header labels written at row 1 of columns O, AE, AF
(`"객관식"`, `"주관식"`, `"총합"`). -/
def writeHeaders (sh : ASheet) : ASheet :=
  setValue
    (setValue
      (setValue sh 1 (OBJECTIVE_SUM_COL + 1) (.av (.vStr "객관식")))
      1 (SUBJECTIVE_SUM_COL + 1) (.av (.vStr "주관식")))
    1 (TOTAL_SUM_COL + 1) (.av (.vStr "총합"))

/-- The working copy of the answer sheet after the header writes
(`source_sheet` at the time `max_r`/`max_c` are taken). -/
def genSource1 (wb : Workbook) : ASheet :=
  writeHeaders (injectSheet (answerSheet wb))

/-- The generated sheet name (`target_sheet_name`); the reloaded copy has the
same sheet names as the caller's workbook. -/
def genTargetName (wb : Workbook) : String :=
  freshSheetName (wb.sheets.map Prod.fst) "채점결과"

/-- `max_r = source_sheet.max_row`, taken after the header writes. -/
def genMaxR (wb : Workbook) : Nat := (genSource1 wb).length

/-- The column extent of the stored data (openpyxl `max_column`). -/
def amaxColumn (s : ASheet) : Nat := (s.map List.length).foldr max 0

/-- `max_c = source_sheet.max_column`, taken after the header writes. -/
def genMaxC (wb : Workbook) : Nat := amaxColumn (genSource1 wb)

/-- The full value copy `target_cell.value = source_cell.value` over one row,
columns 1 to `maxC`. -/
def copyRow (src : ASheet) (r maxC : Nat) (tgt : ASheet) : ASheet :=
  (List.range' 1 maxC).foldl (fun t c => setValue t r c (getValueA src r c)) tgt

/-- The full value copy over rows 1 to `maxR` and columns 1 to `maxC`. -/
def copyValues (src : ASheet) (maxR maxC : Nat) (tgt : ASheet) : ASheet :=
  (List.range' 1 maxR).foldl (fun t r => copyRow src r maxC t) tgt

/-- The target sheet right after creation, header writes and the full value
copy (step 1 of the source). -/
def genTarget2 (wb : Workbook) : ASheet :=
  copyValues (genSource1 wb) (genMaxR wb) (genMaxC wb) (writeHeaders [])

/-- The rows processed by the scoring loop: data rows whose name cell
(column 3) passes the name guard. -/
def scoredRows (src : ASheet) (maxR : Nat) : List Nat :=
  (List.range' 2 (maxR - 1)).filter (fun r => rowNameOk (getValueA src r 3))

/-- The rows the regeneration loop scores. -/
def genRows (wb : Workbook) : List Nat :=
  scoredRows (genSource1 wb) (genMaxR wb)

/-- Scoring loop body, target-sheet part, for one row: write each objective
and subjective score with the source cell's fill copied onto it, then the
three sum formulas. -/
def scoreRow (src : ASheet) (r : Nat) (t : ASheet) : ASheet :=
  let t1 := OBJECTIVE_COLS.foldl
    (fun t c =>
      setFill (setValue t r (c + 1)
          (.aq (OBJECTIVE_SCORES (get_cell_color (getFillA src r (c + 1))))))
        r (c + 1) (getFillA src r (c + 1))) t
  let t2 := SUBJECTIVE_COLS.foldl
    (fun t c =>
      setFill (setValue t r (c + 1)
          (.aq (SUBJECTIVE_SCORES (get_cell_color (getFillA src r (c + 1))))))
        r (c + 1) (getFillA src r (c + 1))) t1
  let oCol := get_column_letter (OBJECTIVE_SUM_COL + 1)
  let eCol := get_column_letter (OBJECTIVE_COLS.headD 0 + 1)
  let nCol := get_column_letter (OBJECTIVE_COLS.getLastD 0 + 1)
  let aeCol := get_column_letter (SUBJECTIVE_SUM_COL + 1)
  let pCol := get_column_letter (SUBJECTIVE_COLS.headD 0 + 1)
  let adCol := get_column_letter (SUBJECTIVE_COLS.getLastD 0 + 1)
  let t3 := setValue t2 r (OBJECTIVE_SUM_COL + 1)
    (.av (.vStr ("=SUM(" ++ eCol ++ natToDec r ++ ":" ++ nCol ++ natToDec r ++ ")")))
  let t4 := setValue t3 r (SUBJECTIVE_SUM_COL + 1)
    (.av (.vStr ("=SUM(" ++ pCol ++ natToDec r ++ ":" ++ adCol ++ natToDec r ++ ")")))
  setValue t4 r (TOTAL_SUM_COL + 1)
    (.av (.vStr ("=" ++ oCol ++ natToDec r ++ "+" ++ aeCol ++ natToDec r)))

/-- Scoring loop body, source-sheet part, for one row: the three cross-sheet
reference formulas into the summary columns. -/
def writeRefFormulas (tname : String) (r : Nat) (sh : ASheet) : ASheet :=
  let oCol := get_column_letter (OBJECTIVE_SUM_COL + 1)
  let aeCol := get_column_letter (SUBJECTIVE_SUM_COL + 1)
  let afCol := get_column_letter (TOTAL_SUM_COL + 1)
  let s1 := setValue sh r (OBJECTIVE_SUM_COL + 1)
    (.av (.vStr ("='" ++ tname ++ "'!" ++ oCol ++ natToDec r)))
  let s2 := setValue s1 r (SUBJECTIVE_SUM_COL + 1)
    (.av (.vStr ("='" ++ tname ++ "'!" ++ aeCol ++ natToDec r)))
  setValue s2 r (TOTAL_SUM_COL + 1)
    (.av (.vStr ("='" ++ tname ++ "'!" ++ afCol ++ natToDec r)))

/-- The final grading-result sheet: value copy plus per-row scores and sum
formulas for every selected row.  The loop interleaves target writes and
source summary-column writes; the target part only reads source cells the
loop never writes (names in column 3, fills of the answer columns), so the
two write streams are modelled as separate folds. -/
def genTarget (wb : Workbook) : ASheet :=
  (genRows wb).foldl
    (fun t r => scoreRow (genSource1 wb) r t) (genTarget2 wb)

/-- The final state of the answer-sheet copy inside the artifact: header
writes plus cross-reference formulas for every selected row. -/
def genSourceFinal (wb : Workbook) : ASheet :=
  (genRows wb).foldl
    (fun sh r => writeRefFormulas (genTargetName wb) r sh) (genSource1 wb)

/-- `ExcelGrader.generate_scored_excel`: returns the caller's workbook as it
stands after the call (the serialize-and-reload isolation means every write
lands in the working copy, so it is returned unchanged) together with the
saved artifact.  The artifact holds the rewritten answer-sheet copy, the
remaining sheets of the workbook, and the appended grading-result sheet.
Column widths are presentation metadata and are not modelled. -/
def generate_scored_excel (wb : Workbook) : Workbook × AWorkbook :=
  (wb,
    { sheets :=
        (answerSheetName wb, genSourceFinal wb) ::
          (reloadCopy wb).sheets.drop 1 ++ [(genTargetName wb, genTarget wb)] })

/-- C7: the caller's loaded workbook comes back from the call exactly as it
went in — the serialize-and-reload step isolates every write in the working
copy — and regenerating a second time on that unmodified workbook produces an
artifact with identical cells throughout: identical numeric score values and
identical formula text (here even the generated sheet name coincides, since
the source workbook's sheet names are unchanged). -/
theorem spec_C7 (wb : Workbook) :
    (generate_scored_excel wb).1 = wb ∧
    (generate_scored_excel ((generate_scored_excel wb).1)).2 =
      (generate_scored_excel wb).2 :=
  ⟨rfl, rfl⟩

/-- The regeneration name guard on a copied source value is the same boolean
as the analysis name test. -/
lemma rowNameOk_av (v : Value) :
    rowNameOk (AVal.av v) = (pyTruthy v && !(pyStrip (pyToStr v) == "")) := by
  unfold rowNameOk aTruthy aToStr
  by_cases ht : pyTruthy v <;> by_cases hs : pyStrip (pyToStr v) = "" <;>
    simp [ht, hs]

/-- The name test only depends on the raw row: padding inserts empty cells,
which are also what `getD` returns beyond the row. -/
lemma nameNonBlank_eq (mc : Nat) (row : List Cell) :
    nameNonBlank mc row =
      (pyTruthy (row.getD 2 emptyCell).value &&
        !(pyStrip (pyToStr (row.getD 2 emptyCell).value) == "")) := by
  unfold nameNonBlank
  rw [show padTo mc row = padListTo row mc emptyCell from rfl, getD_padListTo]

lemma getD_drop_one (s : Sheet) (i : Nat) :
    (s.drop 1).getD i [] = s.getD (i + 1) [] := by
  cases s with
  | nil => rfl
  | cons x xs =>
    simp only [List.drop_succ_cons, List.drop_zero, List.getD_cons_succ]

/-- Values of the reloaded copy are the tagged values of the source sheet. -/
lemma getValueA_injectSheet (s : Sheet) (r c : Nat) :
    getValueA (injectSheet s) r c =
      .av ((s.getD (r - 1) []).getD (c - 1) emptyCell).value := by
  unfold getValueA injectSheet
  rw [show ([] : List ACell) = List.map injectCell [] from rfl, List.getD_map]
  rw [show emptyACell = injectCell emptyCell from rfl, List.getD_map]
  rfl

/-- The header writes only touch row 1. -/
lemma getValueA_writeHeaders_ne (sh : ASheet) (r c : Nat)
    (hr : 2 ≤ r) (hc : 1 ≤ c) :
    getValueA (writeHeaders sh) r c = getValueA sh r c := by
  unfold writeHeaders
  rw [getValueA_setValue_ne _ _ _ _ _ _ (by omega) (by omega) (by omega) (by omega)
      (Or.inl (by omega)),
    getValueA_setValue_ne _ _ _ _ _ _ (by omega) (by omega) (by omega) (by omega)
      (Or.inl (by omega)),
    getValueA_setValue_ne _ _ _ _ _ _ (by omega) (by omega) (by omega) (by omega)
      (Or.inl (by omega))]

/-- The row extent after the header writes: openpyxl reports at least row 1
once the headers are written. -/
lemma genMaxR_eq (wb : Workbook) :
    genMaxR wb = max (answerSheet wb).length 1 := by
  unfold genMaxR genSource1 writeHeaders
  rw [length_setValue _ _ _ _ (by omega), length_setValue _ _ _ _ (by omega),
    length_setValue _ _ _ _ (by omega)]
  have hlen : (injectSheet (answerSheet wb)).length = (answerSheet wb).length := by
    simp [injectSheet]
  omega

/-- Membership of a row number in the projected, filtered enumeration. -/
lemma mem_map_fst_filter_enumFrom (p : List Cell → Bool) :
    ∀ (l : List (List Cell)) (n r : Nat),
      (r ∈ ((List.enumFrom n l).filter (fun q => p q.2)).map Prod.fst) ↔
        (n ≤ r ∧ r - n < l.length ∧ p (l.getD (r - n) []) = true)
  | [], n, r => by
    simp [List.enumFrom]
  | x :: xs, n, r => by
    simp only [List.enumFrom, List.filter_cons]
    by_cases hp : p x = true
    · simp only [hp, if_true, List.map_cons, List.mem_cons]
      rw [mem_map_fst_filter_enumFrom p xs (n + 1) r]
      constructor
      · rintro (rfl | ⟨h1, h2, h3⟩)
        · refine ⟨Nat.le_refl r, by simp, ?_⟩
          rw [Nat.sub_self, List.getD_cons_zero]
          exact hp
        · refine ⟨by omega, by simp; omega, ?_⟩
          obtain ⟨k, hk⟩ : ∃ k, r - n = k + 1 := ⟨r - n - 1, by omega⟩
          rw [hk, List.getD_cons_succ, show k = r - (n + 1) by omega]
          exact h3
      · rintro ⟨h1, h2, h3⟩
        by_cases hrn : r = n
        · exact Or.inl hrn
        · refine Or.inr ⟨by omega, by simp at h2; omega, ?_⟩
          obtain ⟨k, hk⟩ : ∃ k, r - n = k + 1 := ⟨r - n - 1, by omega⟩
          rw [hk, List.getD_cons_succ] at h3
          rw [show r - (n + 1) = k by omega]
          exact h3
    · simp only [hp]
      rw [if_neg (by simp [hp])]
      rw [mem_map_fst_filter_enumFrom p xs (n + 1) r]
      constructor
      · rintro ⟨h1, h2, h3⟩
        refine ⟨by omega, by simp; omega, ?_⟩
        obtain ⟨k, hk⟩ : ∃ k, r - n = k + 1 := ⟨r - n - 1, by omega⟩
        rw [hk, List.getD_cons_succ, show k = r - (n + 1) by omega]
        exact h3
      · rintro ⟨h1, h2, h3⟩
        by_cases hrn : r = n
        · subst hrn
          rw [Nat.sub_self, List.getD_cons_zero] at h3
          exact absurd h3 (by simp [hp])
        · refine ⟨by omega, by simp at h2; omega, ?_⟩
          obtain ⟨k, hk⟩ : ∃ k, r - n = k + 1 := ⟨r - n - 1, by omega⟩
          rw [hk, List.getD_cons_succ] at h3
          rw [show r - (n + 1) = k by omega]
          exact h3

/-- The rows reported by the analysis are exactly the rows the regeneration
loop scores: both apply, row by row, the same name test to the same cell. -/
lemma analyze_rows_eq_genRows (wb : Workbook) (r : Nat) :
    (r ∈ (analyze_answer_sheet (some (answerSheet wb))).map Entry.rowNum) ↔
      r ∈ genRows wb := by
  rw [analyze_eq, List.map_map]
  have hmapeq :
      ((List.enumFrom 2 ((answerSheet wb).drop 1)).filter
          (fun q => nameNonBlank (maxColumn (answerSheet wb)) q.2)).map
        (Entry.rowNum ∘ fun q => mkEntry (maxColumn (answerSheet wb)) q.1 q.2) =
      ((List.enumFrom 2 ((answerSheet wb).drop 1)).filter
          (fun q => nameNonBlank (maxColumn (answerSheet wb)) q.2)).map Prod.fst :=
    List.map_congr_left (fun q _ => rfl)
  rw [hmapeq, mem_map_fst_filter_enumFrom]
  unfold genRows scoredRows
  rw [List.mem_filter, List.mem_range'_1]
  constructor
  · rintro ⟨h2, hlen, hname⟩
    have hval : getValueA (genSource1 wb) r 3 =
        .av (((answerSheet wb).getD (r - 1) []).getD 2 emptyCell).value := by
      unfold genSource1
      rw [getValueA_writeHeaders_ne _ _ _ h2 (by omega), getValueA_injectSheet]
    refine ⟨⟨h2, ?_⟩, ?_⟩
    · rw [genMaxR_eq]
      rw [List.length_drop] at hlen
      omega
    · rw [hval, rowNameOk_av]
      rw [getD_drop_one, show r - 2 + 1 = r - 1 by omega] at hname
      rw [nameNonBlank_eq] at hname
      exact hname
  · rintro ⟨⟨h2, hlt⟩, hname⟩
    have hval : getValueA (genSource1 wb) r 3 =
        .av (((answerSheet wb).getD (r - 1) []).getD 2 emptyCell).value := by
      unfold genSource1
      rw [getValueA_writeHeaders_ne _ _ _ h2 (by omega), getValueA_injectSheet]
    rw [hval, rowNameOk_av] at hname
    rw [genMaxR_eq] at hlt
    refine ⟨h2, ?_, ?_⟩
    · rw [List.length_drop]
      omega
    · rw [getD_drop_one, show r - 2 + 1 = r - 1 by omega, nameNonBlank_eq]
      exact hname

/-- Values after a one-row copy: the copied range takes the source value,
everything else is untouched. -/
lemma getValueA_copyRow (src : ASheet) (r : Nat) (hr : 1 ≤ r) :
    ∀ (maxC : Nat) (tgt : ASheet) (r' c' : Nat), 1 ≤ r' → 1 ≤ c' →
      getValueA (copyRow src r maxC tgt) r' c' =
        if r' = r ∧ c' ≤ maxC then getValueA src r' c' else getValueA tgt r' c'
  | 0, tgt, r', c', hr', hc' => by
    rw [if_neg (by omega)]
    rfl
  | maxC + 1, tgt, r', c', hr', hc' => by
    unfold copyRow
    rw [List.range'_1_concat, List.foldl_append, List.foldl_cons, List.foldl_nil]
    have hbase := getValueA_copyRow src r hr maxC tgt r' c' hr' hc'
    by_cases hsame : r' = r ∧ c' = 1 + maxC
    · rw [hsame.1, hsame.2, getValueA_setValue_self]
      rw [if_pos ⟨rfl, by omega⟩]
    · rw [getValueA_setValue_ne _ _ _ _ _ _ (by omega) (by omega) hr' hc'
        (not_and_or.mp hsame)]
      unfold copyRow at hbase
      rw [hbase]
      by_cases hin : r' = r ∧ c' ≤ maxC
      · rw [if_pos hin, if_pos ⟨hin.1, by omega⟩]
      · rw [if_neg hin, if_neg (by omega)]

/-- Values after the full copy. -/
lemma getValueA_copyValues (src : ASheet) :
    ∀ (maxR : Nat) (maxC : Nat) (tgt : ASheet) (r' c' : Nat), 1 ≤ r' → 1 ≤ c' →
      getValueA (copyValues src maxR maxC tgt) r' c' =
        if r' ≤ maxR ∧ c' ≤ maxC then getValueA src r' c' else getValueA tgt r' c'
  | 0, maxC, tgt, r', c', hr', hc' => by
    rw [if_neg (by omega)]
    rfl
  | maxR + 1, maxC, tgt, r', c', hr', hc' => by
    unfold copyValues
    rw [List.range'_1_concat, List.foldl_append, List.foldl_cons, List.foldl_nil]
    rw [getValueA_copyRow src (1 + maxR) (by omega) maxC _ r' c' hr' hc']
    have hbase := getValueA_copyValues src maxR maxC tgt r' c' hr' hc'
    unfold copyValues at hbase
    by_cases hrow : r' = 1 + maxR
    · by_cases hcol : c' ≤ maxC
      · rw [if_pos ⟨hrow, hcol⟩, if_pos (by omega)]
      · rw [if_neg (by omega), hbase, if_neg (by omega), if_neg (by omega)]
    · rw [if_neg (by omega), hbase]
      by_cases hin : r' ≤ maxR ∧ c' ≤ maxC
      · rw [if_pos hin, if_pos (by omega)]
      · rw [if_neg hin, if_neg (by omega)]

/-- A fold whose body leaves the value at `(r, c)` unchanged leaves it
unchanged. -/
lemma getValueA_foldl_inv {β : Type} (g : ASheet → β → ASheet) (r c : Nat) :
    ∀ (l : List β),
      (∀ (t : ASheet) (b : β), b ∈ l →
        getValueA (g t b) r c = getValueA t r c) →
      ∀ (t : ASheet), getValueA (l.foldl g t) r c = getValueA t r c
  | [], _, _ => rfl
  | b :: bs, hg, t => by
    rw [List.foldl_cons,
      getValueA_foldl_inv g r c bs
        (fun t2 b2 hb2 => hg t2 b2 (List.mem_cons_of_mem b hb2)) (g t b)]
    exact hg t b (List.mem_cons_self b bs)

/-- The scoring writes for one row do not change values in other rows. -/
lemma getValueA_scoreRow_ne (src : ASheet) (rr : Nat) (t : ASheet) (r c : Nat)
    (hr : 1 ≤ r) (hc : 1 ≤ c) (hrr : 1 ≤ rr) (hne : r ≠ rr) :
    getValueA (scoreRow src rr t) r c = getValueA t r c := by
  unfold scoreRow
  rw [getValueA_setValue_ne _ _ _ _ _ _ hrr (by omega) hr hc (Or.inl hne),
    getValueA_setValue_ne _ _ _ _ _ _ hrr (by omega) hr hc (Or.inl hne),
    getValueA_setValue_ne _ _ _ _ _ _ hrr (by omega) hr hc (Or.inl hne)]
  rw [getValueA_foldl_inv _ r c _ (fun t2 b2 hb2 => by
    rw [getValueA_setFill _ _ _ _ _ _ hrr (by omega) hr hc,
      getValueA_setValue_ne _ _ _ _ _ _ hrr (by omega) hr hc (Or.inl hne)])]
  rw [getValueA_foldl_inv _ r c _ (fun t2 b2 hb2 => by
    rw [getValueA_setFill _ _ _ _ _ _ hrr (by omega) hr hc,
      getValueA_setValue_ne _ _ _ _ _ _ hrr (by omega) hr hc (Or.inl hne)])]

/-- Rows the scoring loop does not visit keep their copied values. -/
lemma getValueA_genTarget_skip (wb : Workbook) (r c : Nat)
    (hr : 1 ≤ r) (hc : 1 ≤ c) (hnotin : r ∉ genRows wb) :
    getValueA (genTarget wb) r c = getValueA (genTarget2 wb) r c := by
  unfold genTarget
  rw [getValueA_foldl_inv _ r c _ (fun t2 rr hrr => by
    have hge : 2 ≤ rr := by
      have := List.mem_filter.mp hrr
      have := (List.mem_range'_1.mp this.1).1
      omega
    exact getValueA_scoreRow_ne _ _ _ _ _ hr hc (by omega)
      (fun hEq => hnotin (hEq ▸ hrr)))]

/-- C6, amended: a data row whose name cell is blank is excluded from the
analysis summary; all its cell values are still copied into the
grading-result sheet by the full value copy; and, because the scoring loop
skips the row, no formulas are written into its summary columns — those
cells simply retain the copied original values (the conclusion covers every
column of the copied extent, the three summary columns included). -/
theorem spec_C6 (wb : Workbook) (r : Nat)
    (hr2 : 2 ≤ r) (hrM : r ≤ genMaxR wb)
    (hblank : rowNameOk (getValueA (genSource1 wb) r 3) = false) :
    (r ∉ (analyze_answer_sheet (some (answerSheet wb))).map Entry.rowNum) ∧
    (∀ c : Nat, 1 ≤ c → c ≤ genMaxC wb →
      getValueA (genTarget wb) r c = getValueA (genSource1 wb) r c) := by
  have hnotin : r ∉ genRows wb := by
    intro hmem
    have := List.mem_filter.mp hmem
    rw [this.2] at hblank
    exact absurd hblank (by simp)
  constructor
  · intro hmem
    exact hnotin ((analyze_rows_eq_genRows wb r).mp hmem)
  · intro c hc1 hcM
    rw [getValueA_genTarget_skip wb r c (by omega) hc1 hnotin]
    unfold genTarget2
    rw [getValueA_copyValues _ _ _ _ _ _ (by omega) hc1, if_pos ⟨hrM, hcM⟩]

/-- Decimal digit characters are distinct. -/
lemma digitChar_inj_lt : ∀ a < 10, ∀ b < 10,
    Nat.digitChar a = Nat.digitChar b → a = b := by decide

lemma natToDecChars_ne_nil (n : Nat) : natToDecChars n ≠ [] := by
  rw [natToDecChars_eq]
  split <;> simp

/-- The decimal rendering of a natural number is injective. -/
lemma natToDecChars_inj (a : Nat) :
    ∀ b : Nat, natToDecChars a = natToDecChars b → a = b := by
  intro b h
  rw [natToDecChars_eq a, natToDecChars_eq b] at h
  by_cases ha : a < 10
  · by_cases hb : b < 10
    · rw [if_pos ha, if_pos hb] at h
      simp only [List.cons.injEq] at h
      exact digitChar_inj_lt a ha b hb h.1
    · rw [if_pos ha, if_neg hb] at h
      have hlen := congrArg List.length h
      have hpos : 0 < (natToDecChars (b / 10)).length :=
        List.length_pos.mpr (natToDecChars_ne_nil _)
      simp only [List.length_cons, List.length_nil, List.length_append] at hlen
      omega
  · by_cases hb : b < 10
    · rw [if_neg ha, if_pos hb] at h
      have hlen := congrArg List.length h
      have hpos : 0 < (natToDecChars (a / 10)).length :=
        List.length_pos.mpr (natToDecChars_ne_nil _)
      simp only [List.length_cons, List.length_nil, List.length_append] at hlen
      omega
    · rw [if_neg ha, if_neg hb] at h
      have h2 := congrArg List.reverse h
      simp only [List.reverse_append, List.reverse_cons, List.reverse_nil,
        List.nil_append, List.singleton_append, List.cons.injEq] at h2
      have hmod : a % 10 = b % 10 :=
        digitChar_inj_lt _ (Nat.mod_lt a (by omega)) _ (Nat.mod_lt b (by omega)) h2.1
      have hdiv : a / 10 = b / 10 :=
        natToDecChars_inj (a / 10) (b / 10) (List.reverse_injective h2.2)
      omega
termination_by a
decreasing_by exact Nat.div_lt_self (by omega) (by omega)

/-- Candidate sheet names with different counters are different strings. -/
lemma candName_inj (base : String) (j k : Nat)
    (h : candName base j = candName base k) : j = k := by
  unfold candName at h
  have hd := congrArg String.data h
  simp only [String.data_append, List.append_assoc] at hd
  have h1 := List.append_cancel_left hd
  simp only [List.cons_append, List.nil_append, List.cons.injEq, true_and] at h1
  have h2 := congrArg List.reverse h1
  simp only [List.reverse_append, List.reverse_cons, List.reverse_nil,
    List.nil_append, List.singleton_append, List.cons.injEq, true_and] at h2
  exact natToDecChars_inj j k (List.reverse_injective h2)

/-- Counting lemma: a filter by a pointwise-disjoint disjunction splits. -/
lemma length_filter_or_disjoint {α : Type} (p q : α → Bool)
    (hdisj : ∀ x, ¬(p x = true ∧ q x = true)) :
    ∀ l : List α,
      (l.filter (fun x => p x || q x)).length =
        (l.filter p).length + (l.filter q).length
  | [] => rfl
  | x :: xs => by
    simp only [List.filter_cons]
    have ih := length_filter_or_disjoint p q hdisj xs
    by_cases hp : p x = true
    · have hq : ¬ q x = true := fun hq => hdisj x ⟨hp, hq⟩
      rw [if_pos (by simp [hp]), if_pos hp, if_neg hq]
      simp only [List.length_cons, ih]
      omega
    · by_cases hq : q x = true
      · rw [if_pos (by simp [hq]), if_neg hp, if_pos hq]
        simp only [List.length_cons, ih]
        omega
      · rw [if_neg (by simp [hp, hq]), if_neg hp, if_neg hq]
        exact ih

/-- The collision loop, run with enough fuel, returns a name that is not in
the workbook: the candidates are pairwise distinct, and a list of `n` names
cannot contain `n + 1` distinct candidates. -/
lemma freshNameAux_not_mem (names : List String) (base : String) :
    ∀ (fuel k : Nat),
      (names.filter
        (fun s => decide (s ∈ (List.range' k fuel).map (candName base)))).length <
        fuel →
      freshNameAux names base fuel k ∉ names
  | 0, k, h => absurd h (by omega)
  | fuel + 1, k, h => by
    rw [freshNameAux]
    by_cases hc : candName base k ∈ names
    · rw [if_pos hc]
      apply freshNameAux_not_mem names base fuel (k + 1)
      have hsplit : List.range' k (fuel + 1) = k :: List.range' (k + 1) fuel :=
        List.range'_succ k fuel 1
      have hcongr :
          (names.filter
            (fun s => decide (s ∈ (List.range' k (fuel + 1)).map (candName base)))).length =
          (names.filter
            (fun s => decide (s = candName base k) ||
              decide (s ∈ (List.range' (k + 1) fuel).map (candName base)))).length := by
        congr 1
        apply List.filter_congr
        intro s _
        rw [hsplit]
        simp only [List.map_cons, List.mem_cons]
        by_cases hs : s = candName base k <;> simp [hs]
      have hdisj : ∀ s : String,
          ¬(decide (s = candName base k) = true ∧
            decide (s ∈ (List.range' (k + 1) fuel).map (candName base)) = true) := by
        rintro s ⟨h1, h2⟩
        have h1p := of_decide_eq_true h1
        have h2p := of_decide_eq_true h2
        subst h1p
        obtain ⟨j, hj, hcand⟩ := List.mem_map.mp h2p
        have hjk : j = k := candName_inj base j k hcand
        have := (List.mem_range'_1.mp hj).1
        omega
      have hsum := length_filter_or_disjoint _ _ hdisj names
      have hone : 0 <
          (names.filter (fun s => decide (s = candName base k))).length := by
        have hmem : candName base k ∈
            names.filter (fun s => decide (s = candName base k)) :=
          List.mem_filter.mpr ⟨hc, by simp⟩
        cases hfil : names.filter (fun s => decide (s = candName base k)) with
        | nil => rw [hfil] at hmem; simp at hmem
        | cons y ys => simp [hfil]
      rw [hcongr, hsum] at h
      omega
    · rw [if_neg hc]
      exact hc

/-- The generated sheet name never collides with an existing sheet name. -/
lemma freshSheetName_not_mem (names : List String) (base : String) :
    freshSheetName names base ∉ names := by
  unfold freshSheetName
  by_cases hb : base ∈ names
  · rw [if_pos hb]
    apply freshNameAux_not_mem
    have hle := List.length_filter_le
      (fun s => decide (s ∈ (List.range' 2 (names.length + 1)).map (candName base)))
      names
    omega
  · rw [if_neg hb]
    exact hb

/-- C8: when the base name `채점결과` is already a sheet name and
`채점결과(2)` is not, the created grading-result sheet is named
`채점결과(2)`; in general the chosen name collides with no existing sheet
name, and it is the name of the sheet appended at the end of the artifact. -/
theorem spec_C8 (wb : Workbook) :
    ("채점결과" ∈ wb.sheets.map Prod.fst →
      "채점결과(2)" ∉ wb.sheets.map Prod.fst →
        genTargetName wb = "채점결과(2)") ∧
    genTargetName wb ∉ wb.sheets.map Prod.fst ∧
    ((generate_scored_excel wb).2.sheets.getLastD ("", [])).1 =
      genTargetName wb := by
  refine ⟨?_, freshSheetName_not_mem _ _, ?_⟩
  · intro hb h2
    unfold genTargetName freshSheetName
    rw [if_pos hb, freshNameAux]
    have hcand : candName "채점결과" 2 = "채점결과(2)" := by decide
    rw [hcand, if_neg h2]
  · show ((((answerSheetName wb, genSourceFinal wb) ::
        ((reloadCopy wb).sheets.drop 1 ++
          [(genTargetName wb, genTarget wb)])).getLastD ("", []))).1 =
      genTargetName wb
    rw [List.getLastD_cons]
    simp

/-- C10: the analysis and the regeneration loop select exactly the same rows
(the same truthiness-or-blank test applied to the same name cell), and the
test skips a falsy non-blank name such as the integer 0 — whose string form
`"0"` is not blank — exactly as if the name were blank. -/
theorem spec_C10 (wb : Workbook) :
    (∀ r : Nat,
      (r ∈ (analyze_answer_sheet (some (answerSheet wb))).map Entry.rowNum ↔
        r ∈ genRows wb)) ∧
    (pyTruthy (Value.vInt 0) = false ∧ pyStrip (pyToStr (Value.vInt 0)) = "0") ∧
    (∀ (mc : Nat) (row : List Cell),
      (row.getD 2 emptyCell).value = Value.vInt 0 → nameNonBlank mc row = false) ∧
    (∀ v : Value,
      rowNameOk (AVal.av v) = (pyTruthy v && !(pyStrip (pyToStr v) == ""))) := by
  refine ⟨analyze_rows_eq_genRows wb, ⟨by decide, by decide⟩, ?_, rowNameOk_av⟩
  intro mc row h
  rw [nameNonBlank_eq, h]
  decide

/-- A workbook whose single data row (row 2) has a blank (empty) name
cell. -/
def blankRowWorkbook : Workbook :=
  { sheets := [("Sheet1", [[emptyCell], [emptyCell]])] }

/-- A workbook already containing a sheet named `채점결과`. -/
def dupNameWorkbook : Workbook := { sheets := [("채점결과", [])] }

/-- A row whose name cell holds the integer 0. -/
def zeroNameRow : List Cell :=
  [emptyCell, emptyCell, { value := Value.vInt 0, fill := CellFill.noFill }]

set_option maxRecDepth 40000 in
/-- C6, counterexample to the claim as stated: on a workbook whose row 2 has
a blank name, the summary is empty and row 2 is skipped by the scoring loop,
and the grading-result sheet's objective summary cell of row 2 holds the
copied original value (here `None`) — not the zero-credit sum formula
`=SUM(E2:N2)` the claim says is written there.  No formula of any kind is
written into the skipped row's summary columns. -/
theorem spec_C6_counterexample :
    (analyze_answer_sheet (some (answerSheet blankRowWorkbook))).map
        Entry.rowNum = [] ∧
    rowNameOk (getValueA (genSource1 blankRowWorkbook) 2 3) = false ∧
    getValueA (genTarget blankRowWorkbook) 2 (OBJECTIVE_SUM_COL + 1) =
      AVal.av Value.vNone ∧
    getValueA (genTarget blankRowWorkbook) 2 (OBJECTIVE_SUM_COL + 1) ≠
      AVal.av (Value.vStr "=SUM(E2:N2)") := by
  refine ⟨by decide, by decide, by decide, ?_⟩
  intro hcontra
  rw [show getValueA (genTarget blankRowWorkbook) 2 (OBJECTIVE_SUM_COL + 1) =
      AVal.av Value.vNone by decide] at hcontra
  simp at hcontra

/-- Witness for C6: the amended statement applied to the concrete blank-name
workbook. -/
theorem spec_C6_witness :
    (2 ∉ (analyze_answer_sheet (some (answerSheet blankRowWorkbook))).map
        Entry.rowNum) ∧
    (∀ c : Nat, 1 ≤ c → c ≤ genMaxC blankRowWorkbook →
      getValueA (genTarget blankRowWorkbook) 2 c =
        getValueA (genSource1 blankRowWorkbook) 2 c) :=
  spec_C6 blankRowWorkbook 2 (by decide) (by decide) (by decide)

/-- Witness for C8: a workbook that already has a `채점결과` sheet gets
`채점결과(2)`, which is fresh. -/
theorem spec_C8_witness :
    genTargetName dupNameWorkbook = "채점결과(2)" ∧
    genTargetName dupNameWorkbook ∉ dupNameWorkbook.sheets.map Prod.fst :=
  ⟨(spec_C8 dupNameWorkbook).1 (by decide) (by decide),
   (spec_C8 dupNameWorkbook).2.1⟩

/-- Witness for C10: the row-selection equivalence at a concrete workbook and
row, and the zero-named row being skipped. -/
theorem spec_C10_witness :
    ((2 ∈ (analyze_answer_sheet (some (answerSheet blankRowWorkbook))).map
        Entry.rowNum) ↔ 2 ∈ genRows blankRowWorkbook) ∧
    nameNonBlank 3 zeroNameRow = false :=
  ⟨(spec_C10 blankRowWorkbook).1 2,
   (spec_C10 blankRowWorkbook).2.2.1 3 zeroNameRow (by decide)⟩

/-- C9: if the workbook has no usable first sheet (`self.answer_sheet` unset),
`analyze_answer_sheet` returns an empty summary; in the embedding the function
is total, so no exception is raised. -/
theorem spec_C9 : analyze_answer_sheet none = [] := rfl

end PE
